import Mathlib

/-!
Shallow embedding of the stock-monitoring dashboard's core logic
(`main.py`): the Google-Sheet normalizer `load_data_from_gsheet`,
the critical-item filter `get_critical_items`, and the webhook
notifier `trigger_restock_webhook`, together with theorems settling
the specification claims about them.

A spreadsheet cell is either missing (NaN), a string, or an integer
(post-coercion columns hold integers).  A table is a header list plus
row-major cell lists, mirroring a pandas DataFrame read from CSV.
-/

inductive Cell where
  | null : Cell
  | str : String → Cell
  | int : Int → Cell
deriving DecidableEq

structure Table where
  headers : List String
  rows : List (List Cell)
deriving DecidableEq

/-- Cell of a row at a column position; out-of-range reads are NaN. -/
def cellAt (r : List Cell) (i : Nat) : Cell := r.getD i Cell.null

/-- ASCII lower-casing of one character, modelling Python `str.lower`. -/
def lowerChar (c : Char) : Char :=
  if 65 ≤ c.toNat ∧ c.toNat ≤ 90 then Char.ofNat (c.toNat + 32) else c

def isSpaceChar (c : Char) : Bool :=
  c == ' ' || c == '\t' || c == '\n' || c == '\r'

/-- Python `s.strip()` on a character list. -/
def stripChars (l : List Char) : List Char :=
  ((l.dropWhile isSpaceChar).reverse.dropWhile isSpaceChar).reverse

/-- `c.lower().strip()`: the normalization applied to source headers. -/
def normHeader (s : String) : String :=
  String.mk (stripChars (s.data.map lowerChar))

/-- The `column_map` literal of `load_data_from_gsheet`: canonical field
name paired with its alias list in declared priority order. -/
def column_map : List (String × List String) :=
  [("Available Stock",
    ["stock", "qty", "quantity", "inventory", "available", "on hand",
     "available stock(sync with shopify)"]),
   ("Restock Level",
    ["restock level", "threshold", "min stock", "reorder point", "minimum"]),
   ("Product Name",
    ["product name", "name", "title", "item name"]),
   ("SKU",
    ["sku", "id", "item no", "item number", "barcode"])]

/-- `current_cols[key]`: the source header whose normalization is `key`.
The Python dict comprehension keeps the last header for a repeated key. -/
def current_cols (headers : List String) (key : String) : Option String :=
  (headers.filter (fun c => normHeader c == key)).getLast?

/-- The inner alias loop with `break`: the first alias present among the
normalized source headers yields its source header. -/
def firstAliasSource (headers : List String) (aliases : List String) :
    Option String :=
  aliases.findSome? (fun a => current_cols headers a)

/-- `rename_dict`: source header ↦ canonical name, one entry per canonical
field whose alias list matched. -/
def rename_dict (headers : List String) : List (String × String) :=
  column_map.filterMap
    (fun p => (firstAliasSource headers p.2).map (fun src => (src, p.1)))

/-- `df.rename(columns=rename_dict)` on a single label. -/
def applyRename (rd : List (String × String)) (c : String) : String :=
  (rd.lookup c).getD c

/-- The renaming step: relabels headers, leaves row data untouched. -/
def renameStep (t : Table) : Table :=
  ⟨t.headers.map (applyRename (rename_dict t.headers)), t.rows⟩

/-- Pad (or cut) a row to the header width, as `read_csv` yields
rectangular frames with NaN for absent cells. -/
def padTo (n : Nat) (r : List Cell) : List Cell :=
  (r ++ List.replicate (n - r.length) Cell.null).take n

/-- `df.dropna(subset=[df.columns[0], df.columns[1]])`: keep rows with
values in the first two columns. -/
def rows_pruned (raw : Table) : List (List Cell) :=
  (raw.rows.map (padTo raw.headers.length)).filter
    (fun r => !(cellAt r 0 == Cell.null) && !(cellAt r 1 == Cell.null))

def isDigitChar (c : Char) : Bool := 48 ≤ c.toNat && c.toNat ≤ 57

def digitsVal (l : List Char) : Nat :=
  l.foldl (fun acc c => acc * 10 + (c.toNat - 48)) 0

/-- Unsigned decimal numeral, with optional fractional part
(`"5"`, `"5.25"`, `"5."`, `".5"`); exponent forms are not modelled. -/
def parseUnsigned (l : List Char) : Option ℚ :=
  let ip := l.takeWhile isDigitChar
  let rest := l.drop ip.length
  match rest with
  | [] => if ip.isEmpty then none else some (digitsVal ip : ℚ)
  | '.' :: fp =>
      if fp.all isDigitChar ∧ ¬(ip.isEmpty ∧ fp.isEmpty) then
        some ((digitsVal ip : ℚ) + (digitsVal fp : ℚ) / ((10 : ℚ) ^ fp.length))
      else none
  | _ => none

/-- `pd.to_numeric(·, errors="coerce")` on one string: whitespace-stripped
optionally signed decimal, `none` (NaN) on parse failure. -/
def toNumeric (s : String) : Option ℚ :=
  match stripChars s.data with
  | '-' :: rest => (parseUnsigned rest).map (fun q => -q)
  | '+' :: rest => parseUnsigned rest
  | t => parseUnsigned t

def toNumericCell : Cell → Option ℚ
  | Cell.null => none
  | Cell.str s => toNumeric s
  | Cell.int n => some (n : ℚ)

/-- Float-to-int cast truncates toward zero. -/
def truncQ (q : ℚ) : Int := q.num.tdiv (q.den : Int)

/-- `pd.to_numeric(c, errors="coerce").fillna(0).astype(int)` per cell. -/
def coerceInt (c : Cell) : Int :=
  match toNumericCell c with
  | some q => truncQ q
  | none => 0

/-- Overwrite the (first) column labelled `name` row-wise. -/
def setCol (t : Table) (name : String) (f : List Cell → Cell) : Table :=
  ⟨t.headers, t.rows.map (fun r => r.set (t.headers.indexOf name) (f r))⟩

/-- Append a fresh column labelled `name`. -/
def addCol (t : Table) (name : String) (f : List Cell → Cell) : Table :=
  ⟨t.headers ++ [name], t.rows.map (fun r => r ++ [f r])⟩

/-- `df["name"] = ...`: overwrite when present, append when absent. -/
def setOrAddCol (t : Table) (name : String) (f : List Cell → Cell) : Table :=
  if name ∈ t.headers then setCol t name f else addCol t name f

/-- Lines 92-93: `df["Restock Level"] = 10` when the column is missing. -/
def addRestockDefault (t : Table) : Table :=
  if "Restock Level" ∈ t.headers then t
  else addCol t "Restock Level" (fun _ => Cell.int 10)

/-- Lines 96-97: force a named column to coerced integers. -/
def forceNumeric (t : Table) (name : String) : Table :=
  setCol t name (fun r => Cell.int (coerceInt (cellAt r (t.headers.indexOf name))))

/-- The three-way status rule of lines 100-102. -/
def statusOf (a b : Int) : String :=
  if a ≤ 10 then "Critical" else if a < b then "Low Stock" else "In Stock"

def getIntD (c : Cell) : Int :=
  match c with
  | Cell.int n => n
  | _ => 0

/-- Line 100: derive the `Status` column from the two coerced columns. -/
def addStatus (t : Table) : Table :=
  setOrAddCol t "Status"
    (fun r => Cell.str (statusOf
      (getIntD (cellAt r (t.headers.indexOf "Available Stock")))
      (getIntD (cellAt r (t.headers.indexOf "Restock Level")))))

def emptyTable : Table := ⟨[], []⟩

/-- The table after dropna + rename (lines 51-81). -/
def afterRename (raw : Table) : Table :=
  renameStep ⟨raw.headers, rows_pruned raw⟩

/-- The table after the Restock-Level default (lines 92-93). -/
def afterDefault (raw : Table) : Table :=
  addRestockDefault (afterRename raw)

/-- The table after coercion and status derivation (lines 96-102). -/
def finalTable (raw : Table) : Table :=
  addStatus (forceNumeric (forceNumeric (afterDefault raw) "Available Stock")
    "Restock Level")

/-- `load_data_from_gsheet` on an already-fetched raw table, returning the
canonical table and an error message on the caught-failure paths.  Fewer
than two columns makes `df.columns[1]` raise, caught by the outer handler;
duplicate canonical labels make the pandas column ops of lines 96-97 raise,
likewise caught; both surface as an empty table plus a message. -/
def load_data_from_gsheet (raw : Table) : Table × Option String :=
  if raw.headers.length < 2 then
    (emptyTable, some "Error loading data from Google Sheets: column index out of range")
  else if "Available Stock" ∉ (afterRename raw).headers then
    (emptyTable, some "Could not detect a Stock column. Please check headers.")
  else if 2 ≤ (afterDefault raw).headers.count "Available Stock" ∨
          2 ≤ (afterDefault raw).headers.count "Restock Level" then
    (emptyTable, some "Error loading data from Google Sheets: duplicate column labels")
  else
    (finalTable raw, none)

/-- One record of `df.to_dict("records")`. -/
def recordOf (headers : List String) (r : List Cell) : List (String × Cell) :=
  headers.zip r

/-- `get_critical_items(df, threshold)` (lines 114-127).  `df.empty` is
true when either axis is empty; the mask compares the numerically coerced
(NaN-filled-with-0) stock value against `int(threshold)`. -/
def get_critical_items (df : Option Table) (threshold : Int) :
    List (List (String × Cell)) :=
  match df with
  | none => []
  | some t =>
    if t.rows.isEmpty || t.headers.isEmpty then []
    else if "Available Stock" ∉ t.headers then []
    else
      ((t.rows.filter (fun r =>
          decide ((toNumericCell (cellAt r (t.headers.indexOf "Available Stock"))).getD 0
            ≤ (threshold : ℚ)))).map (recordOf t.headers))

/-- An HTTP response as `trigger_restock_webhook` inspects it:
status code, raw text body, and the JSON body when it parses to an
object of string fields (`none` models both unparseable and non-object
bodies, for which `resp.json()` / `.get` raise and are caught). -/
structure Response where
  status_code : Nat
  text : String
  json : Option (List (String × String))
deriving DecidableEq

def jsonGet (resp : Response) (key : String) : Option String :=
  resp.json.bind (fun obj => obj.lookup key)

/-- Python `x or y` on optional strings: empty string and `None` are falsy. -/
def pyOr (a b : Option String) : Option String :=
  match a with
  | some s => if s = "" then b else some s
  | none => b

/-- `hint_text`: the extracted hint when truthy, else the raw body text. -/
def extractedHint (resp : Response) : String :=
  match pyOr (jsonGet resp "hint") (jsonGet resp "message") with
  | some s => if s = "" then resp.text else s
  | none => resp.text

def guidanceMsg : String :=
  "Ensure the workflow with this webhook is \u0027Activated\u0027 in n8n, or click \u0027Execute workflow\u0027 in the editor to register the temporary webhook before calling it."

/-- `trigger_restock_webhook(webhook_url, items)` (lines 165-200).  The
network effect is passed in as `net`: the transport exception message or
the response of the single POST. -/
def trigger_restock_webhook (webhook_url : String)
    (items : List (List (String × Cell))) (net : Except String Response) :
    Bool × String :=
  if webhook_url = "" then (false, "Webhook URL not configured")
  else
    match net with
    | Except.error e => (false, "Error triggering webhook: " ++ e)
    | Except.ok resp =>
      if 200 ≤ resp.status_code ∧ resp.status_code < 300 then
        (true, "Restock webhook triggered successfully")
      else if resp.status_code = 404 then
        (false, "Webhook error " ++ toString resp.status_code ++ ": " ++
          extractedHint resp ++ " — " ++ guidanceMsg)
      else
        (false, "Webhook error " ++ toString resp.status_code ++ ": " ++
          extractedHint resp)

/-- Substring containment, used to state the webhook-message claims. -/
def containsStr (big small : String) : Prop :=
  ∃ pre post, big = pre ++ small ++ post

/-- An alias is present when some source header normalizes to it. -/
def aliasPresent (hs : List String) (a : String) : Prop :=
  ∃ c ∈ hs, normHeader c = a

instance (hs : List String) (a : String) : Decidable (aliasPresent hs a) :=
  inferInstanceAs (Decidable (∃ c ∈ hs, normHeader c = a))

/-- The composed coercion-and-status tail of the pipeline (lines 96-102),
shared by the claims about the canonical table. -/
def numStatusPipeline (t3 : Table) : Table :=
  addStatus (forceNumeric (forceNumeric t3 "Available Stock") "Restock Level")

/-! ### Generic association-list and cell-access lemmas -/

theorem lookup_mem {α β : Type} [BEq α] [LawfulBEq α] {l : List (α × β)} {k : α} {v : β}
    (h : l.lookup k = some v) : (k, v) ∈ l := by
  induction l with
  | nil => simp [List.lookup] at h
  | cons p rest ih =>
    obtain ⟨a, b⟩ := p
    rw [List.lookup_cons] at h
    by_cases hk : (k == a)
    · have hka : k = a := eq_of_beq hk
      rw [hk] at h
      simp at h
      subst hka
      subst h
      exact List.mem_cons_self _ _
    · rw [Bool.eq_false_iff.mpr hk] at h
      exact List.mem_cons_of_mem _ (ih h)

theorem lookup_eq_some_of_mem_unique {α β : Type} [BEq α] [LawfulBEq α]
    {l : List (α × β)} {k : α} {v : β}
    (hmem : (k, v) ∈ l) (huniq : ∀ v', (k, v') ∈ l → v' = v) :
    l.lookup k = some v := by
  induction l with
  | nil => simp at hmem
  | cons p rest ih =>
    obtain ⟨a, b⟩ := p
    rw [List.lookup_cons]
    by_cases hk : (k == a)
    · have hka : k = a := eq_of_beq hk
      rw [hk]
      subst hka
      exact congrArg some (huniq b (List.mem_cons_self _ _))
    · rw [Bool.eq_false_iff.mpr hk]
      have hne : (k, v) ≠ (a, b) := by
        intro e
        exact hk (beq_iff_eq.mpr (congrArg Prod.fst e))
      rcases List.mem_cons.mp hmem with h1 | h1
      · exact absurd h1 hne
      · exact ih h1 (fun v' h' => huniq v' (List.mem_cons_of_mem _ h'))

theorem cellAt_set_self {r : List Cell} {i : Nat} (h : i < r.length) (x : Cell) :
    cellAt (r.set i x) i = x := by
  simp [cellAt, List.getD_eq_getElem?_getD, List.getElem?_set_self h]

theorem cellAt_set_ne {r : List Cell} {i j : Nat} (h : i ≠ j) (x : Cell) :
    cellAt (r.set i x) j = cellAt r j := by
  simp [cellAt, List.getD_eq_getElem?_getD, List.getElem?_set_ne h]

theorem cellAt_append_left {r s : List Cell} {i : Nat} (h : i < r.length) :
    cellAt (r ++ s) i = cellAt r i := by
  simp [cellAt, List.getD_eq_getElem?_getD, List.getElem?_append_left h]

theorem cellAt_append_self {r : List Cell} (x : Cell) :
    cellAt (r ++ [x]) r.length = x := by
  simp [cellAt, List.getD_eq_getElem?_getD, List.getElem?_append_right (Nat.le_refl _)]

theorem padTo_length (n : Nat) (r : List Cell) : (padTo n r).length = n := by
  simp [padTo]
  omega

theorem rows_pruned_length {raw : Table} {r : List Cell} (h : r ∈ rows_pruned raw) :
    r.length = raw.headers.length := by
  have h1 := (List.mem_filter.mp h).1
  obtain ⟨r0, _, hr0⟩ := List.mem_map.mp h1
  rw [← hr0]
  exact padTo_length _ _

/-! ### Header-matching lemmas -/

theorem current_cols_eq_some {hs : List String} {a c : String}
    (h : current_cols hs a = some c) : c ∈ hs ∧ normHeader c = a := by
  have hm := List.mem_of_getLast?_eq_some h
  have := List.mem_filter.mp hm
  exact ⟨this.1, by simpa using this.2⟩

theorem current_cols_isSome_iff {hs : List String} {a : String} :
    (current_cols hs a).isSome ↔ aliasPresent hs a := by
  constructor
  · intro h
    obtain ⟨c, hc⟩ := Option.isSome_iff_exists.mp h
    obtain ⟨h1, h2⟩ := current_cols_eq_some hc
    exact ⟨c, h1, h2⟩
  · intro ⟨c, hc, hn⟩
    rw [current_cols, Option.isSome_iff_ne_none]
    intro hnone
    rw [List.getLast?_eq_none_iff] at hnone
    have : c ∈ hs.filter (fun c => normHeader c == a) :=
      List.mem_filter.mpr ⟨hc, by simpa using hn⟩
    rw [hnone] at this
    simp at this

theorem current_cols_eq_none {hs : List String} {a : String}
    (h : ¬ aliasPresent hs a) : current_cols hs a = none := by
  rw [← Option.not_isSome_iff_eq_none]
  intro hsome
  exact h (current_cols_isSome_iff.mp hsome)

theorem rename_dict_mem {hs : List String} {s v : String} :
    (s, v) ∈ rename_dict hs ↔
      ∃ al, (v, al) ∈ column_map ∧ firstAliasSource hs al = some s := by
  rw [rename_dict, List.mem_filterMap]
  constructor
  · intro ⟨p, hp, he⟩
    obtain ⟨src, hsrc, heq⟩ := Option.map_eq_some'.mp he
    obtain ⟨h1, h2⟩ := Prod.mk.injEq _ _ _ _ ▸ heq
    exact ⟨p.2, by rw [← h2]; exact (Prod.mk.eta (p := p)) ▸ hp, by rw [h1] at hsrc; exact hsrc⟩
  · intro ⟨al, hmem, hfas⟩
    exact ⟨(v, al), hmem, by simp [hfas]⟩

theorem firstAliasSource_exists {hs : List String} {al : List String} {s : String}
    (h : firstAliasSource hs al = some s) :
    ∃ a ∈ al, current_cols hs a = some s :=
  List.exists_of_findSome?_eq_some h

/-- Each alias string belongs to the alias list of at most one canonical
field of `column_map`. -/
theorem alias_owner_unique :
    ∀ v al, (v, al) ∈ column_map → ∀ a ∈ al,
      ∀ v' al', (v', al') ∈ column_map → a ∈ al' → v' = v := by
  intro v al hmem
  fin_cases hmem <;>
    (intro a ha
     fin_cases ha <;>
       (intro v' al' hmem'
        fin_cases hmem' <;> (intro ha'; revert ha'; decide)))

theorem rename_dict_value_unique {hs : List String} {s v v' : String}
    (h : (s, v) ∈ rename_dict hs) (h' : (s, v') ∈ rename_dict hs) : v' = v := by
  obtain ⟨al, hal, hfas⟩ := rename_dict_mem.mp h
  obtain ⟨al', hal', hfas'⟩ := rename_dict_mem.mp h'
  obtain ⟨a, ha, hcc⟩ := firstAliasSource_exists hfas
  obtain ⟨a', ha', hcc'⟩ := firstAliasSource_exists hfas'
  have hn := (current_cols_eq_some hcc).2
  have hn' := (current_cols_eq_some hcc').2
  have : a' = a := by rw [← hn, ← hn']
  subst this
  exact alias_owner_unique v al hal a' ha v' al' hal' ha'

theorem rename_dict_lookup_of_mem {hs : List String} {s v : String}
    (h : (s, v) ∈ rename_dict hs) : (rename_dict hs).lookup s = some v :=
  lookup_eq_some_of_mem_unique h (fun _ h' => rename_dict_value_unique h h')

/-- The alias loop returns the match of the first present alias. -/
theorem firstAliasSource_first {hs : List String} :
    ∀ (al : List String) (k : Nat), k < al.length →
      (∀ j, j < k → current_cols hs (al.getD j "") = none) →
      (current_cols hs (al.getD k "")).isSome →
      firstAliasSource hs al = current_cols hs (al.getD k "") := by
  intro al
  induction al with
  | nil => intro k hk; simp at hk
  | cons a rest ih =>
    intro k hk hnone hsome
    match k with
    | 0 =>
      simp only [List.getD_cons_zero] at hsome ⊢
      rw [firstAliasSource, List.findSome?_cons]
      obtain ⟨s, hs'⟩ := Option.isSome_iff_exists.mp hsome
      rw [hs']
    | Nat.succ m =>
      have h0 : current_cols hs a = none := by
        have := hnone 0 (Nat.succ_pos m)
        simpa using this
      simp only [List.getD_cons_succ] at hsome ⊢
      rw [firstAliasSource, List.findSome?_cons, h0]
      exact ih m (by simpa using hk)
        (fun j hj => by simpa using hnone (j + 1) (Nat.succ_lt_succ hj)) hsome

/-- C3: header matching in the normalizer is case-insensitive and
whitespace-trimmed and alias-priority-ordered: for a canonical field of
`column_map`, if the alias at position `k` is present among the
(lowercased, stripped) source headers and no earlier-declared alias is,
then the source header resolved for that alias is the one the rename
mapping sends to the canonical name. -/
theorem c3_alias_priority (hs : List String) (canon : String) (al : List String)
    (k : Nat) (hmem : (canon, al) ∈ column_map) (hk : k < al.length)
    (hmatch : aliasPresent hs (al.getD k ""))
    (hbefore : ∀ j, j < k → ¬ aliasPresent hs (al.getD j "")) :
    ∃ src, current_cols hs (al.getD k "") = some src ∧
      src ∈ hs ∧ normHeader src = al.getD k "" ∧
      (rename_dict hs).lookup src = some canon := by
  have hsome : (current_cols hs (al.getD k "")).isSome :=
    current_cols_isSome_iff.mpr hmatch
  obtain ⟨src, hsrc⟩ := Option.isSome_iff_exists.mp hsome
  have hfas : firstAliasSource hs al = some src := by
    rw [firstAliasSource_first al k hk
      (fun j hj => current_cols_eq_none (hbefore j hj)) hsome]
    exact hsrc
  have hmemrd : (src, canon) ∈ rename_dict hs :=
    rename_dict_mem.mpr ⟨al, hmem, hfas⟩
  obtain ⟨hin, hnorm⟩ := current_cols_eq_some hsrc
  exact ⟨src, hsrc, hin, hnorm, rename_dict_lookup_of_mem hmemrd⟩

/-- Witness for C3 at a concrete header list: among the aliases of
`Available Stock`, `"stock"` (position 0) is absent and `"qty"`
(position 1) matches the header `" QTY "`. -/
theorem c3_witness :
    ∃ src,
      current_cols [" QTY ", "Name"]
        ((["stock", "qty", "quantity", "inventory", "available", "on hand",
           "available stock(sync with shopify)"]).getD 1 "") = some src ∧
      src ∈ [" QTY ", "Name"] ∧
      normHeader src =
        (["stock", "qty", "quantity", "inventory", "available", "on hand",
          "available stock(sync with shopify)"]).getD 1 "" ∧
      (rename_dict [" QTY ", "Name"]).lookup src = some "Available Stock" :=
  c3_alias_priority [" QTY ", "Name"] "Available Stock"
    ["stock", "qty", "quantity", "inventory", "available", "on hand",
     "available stock(sync with shopify)"] 1
    (by decide) (by decide) (by decide) (by decide)

/-! ### Webhook claims -/

theorem containsStr_self_middle (pre small post : String) :
    containsStr (pre ++ small ++ post) small :=
  ⟨pre, post, rfl⟩

theorem containsStr_right (pre small : String) :
    containsStr (pre ++ small) small :=
  ⟨pre, "", by rw [String.append_empty]⟩

/-- C7: with an empty webhook URL the notifier returns
`(false, "Webhook URL not configured")`, independently of whatever the
network would have answered (so no network call is consulted). -/
theorem c7_empty_url (items : List (List (String × Cell)))
    (net : Except String Response) :
    trigger_restock_webhook "" items net = (false, "Webhook URL not configured") := by
  rfl

/-- C8: a 404 response whose JSON body carries a `hint` (or `message`)
field yields `success = false` and a message containing both the
extracted hint text and the fixed n8n activation guidance. -/
theorem c8_hint_404 (url : String) (items : List (List (String × Cell)))
    (resp : Response) (hurl : url ≠ "") (h404 : resp.status_code = 404)
    (hfield : jsonGet resp "hint" ≠ none ∨ jsonGet resp "message" ≠ none) :
    (trigger_restock_webhook url items (Except.ok resp)).1 = false ∧
    containsStr (trigger_restock_webhook url items (Except.ok resp)).2
      (extractedHint resp) ∧
    containsStr (trigger_restock_webhook url items (Except.ok resp)).2
      guidanceMsg := by
  have hres : trigger_restock_webhook url items (Except.ok resp) =
      (false, "Webhook error " ++ toString resp.status_code ++ ": " ++
        extractedHint resp ++ " — " ++ guidanceMsg) := by
    rw [trigger_restock_webhook, if_neg hurl]
    rw [if_neg (by rw [h404]; omega)]
    rw [if_pos h404]
  refine ⟨by rw [hres], ?_, ?_⟩
  · rw [hres]
    exact ⟨"Webhook error " ++ toString resp.status_code ++ ": ",
      " — " ++ guidanceMsg, by simp [String.append_assoc]⟩
  · rw [hres]
    exact ⟨"Webhook error " ++ toString resp.status_code ++ ": " ++
      extractedHint resp ++ " — ", "", by simp [String.append_assoc]⟩

/-- Witness for C8: a concrete 404 response with hint `"inactive"`. -/
theorem c8_witness :
    (trigger_restock_webhook "http:u" []
      (Except.ok ⟨404, "", some [("hint", "inactive")]⟩)).1 = false ∧
    containsStr (trigger_restock_webhook "http:u" []
      (Except.ok ⟨404, "", some [("hint", "inactive")]⟩)).2
      (extractedHint ⟨404, "", some [("hint", "inactive")]⟩) ∧
    containsStr (trigger_restock_webhook "http:u" []
      (Except.ok ⟨404, "", some [("hint", "inactive")]⟩)).2 guidanceMsg :=
  c8_hint_404 "http:u" [] ⟨404, "", some [("hint", "inactive")]⟩
    (by decide) rfl (Or.inl (by decide))

/-- C9: exactly the responses with status in `[200, 300)` produce
`success = true`, and then the message is the fixed confirmation string. -/
theorem c9_success_range (url : String) (items : List (List (String × Cell)))
    (net : Except String Response) (hurl : url ≠ "") :
    ((trigger_restock_webhook url items net).1 = true ↔
      ∃ resp, net = Except.ok resp ∧ 200 ≤ resp.status_code ∧
        resp.status_code < 300) ∧
    (∀ resp, net = Except.ok resp → 200 ≤ resp.status_code →
      resp.status_code < 300 →
      trigger_restock_webhook url items net =
        (true, "Restock webhook triggered successfully")) := by
  cases net with
  | error e =>
    refine ⟨⟨fun h => ?_, fun ⟨resp, hnet, _, _⟩ => by cases hnet⟩,
      fun resp hnet _ _ => by cases hnet⟩
    simp [trigger_restock_webhook, hurl] at h
  | ok resp =>
    by_cases hr : 200 ≤ resp.status_code ∧ resp.status_code < 300
    · have he : trigger_restock_webhook url items (Except.ok resp) =
          (true, "Restock webhook triggered successfully") := by
        simp [trigger_restock_webhook, hurl, hr]
      exact ⟨⟨fun _ => ⟨resp, rfl, hr.1, hr.2⟩, fun _ => by rw [he]⟩,
        fun resp' hnet _ _ => by cases hnet; rw [he]⟩
    · have he : (trigger_restock_webhook url items (Except.ok resp)).1 = false := by
        by_cases h404 : resp.status_code = 404 <;>
          simp [trigger_restock_webhook, hurl, hr, h404]
      refine ⟨⟨fun h => ?_, fun ⟨resp', hnet, h1, h2⟩ => ?_⟩,
        fun resp' hnet h1 h2 => ?_⟩
      · rw [he] at h
        exact absurd h (by decide)
      · cases hnet
        exact absurd ⟨h1, h2⟩ hr
      · cases hnet
        exact absurd ⟨h1, h2⟩ hr

/-- Witness for C9 at a concrete 200 response. -/
theorem c9_witness :
    ((trigger_restock_webhook "http:u" []
        (Except.ok (⟨200, "ok", none⟩ : Response))).1 = true ↔
      ∃ resp, (Except.ok (⟨200, "ok", none⟩ : Response) :
          Except String Response) = Except.ok resp ∧
        200 ≤ resp.status_code ∧ resp.status_code < 300) ∧
    (∀ resp : Response,
      (Except.ok (⟨200, "ok", none⟩ : Response) :
          Except String Response) = Except.ok resp →
      200 ≤ resp.status_code → resp.status_code < 300 →
      trigger_restock_webhook "http:u" []
          (Except.ok (⟨200, "ok", none⟩ : Response)) =
        (true, "Restock webhook triggered successfully")) :=
  c9_success_range "http:u" [] (Except.ok (⟨200, "ok", none⟩ : Response))
    (by decide)

/-! ### Critical-items claim -/

/-- C10: `get_critical_items` returns `[]` for `None`, empty, or
stock-column-less inputs, and otherwise exactly the records of rows whose
numerically coerced stock value (parse failures as 0) is at most the
threshold; being a total function, it raises nothing. -/
theorem c10_critical_items (t : Table) (threshold : Int) :
    get_critical_items none threshold = [] ∧
    (t.rows = [] ∨ t.headers = [] → get_critical_items (some t) threshold = []) ∧
    ("Available Stock" ∉ t.headers → get_critical_items (some t) threshold = []) ∧
    (t.rows ≠ [] → t.headers ≠ [] → "Available Stock" ∈ t.headers →
      ∀ rec, rec ∈ get_critical_items (some t) threshold ↔
        ∃ r ∈ t.rows,
          (toNumericCell (cellAt r (t.headers.indexOf "Available Stock"))).getD 0
            ≤ (threshold : ℚ) ∧ rec = recordOf t.headers r) := by
  refine ⟨rfl, ?_, ?_, ?_⟩
  · intro h
    rcases h with h | h <;>
      simp [get_critical_items, h]
  · intro h
    by_cases he : t.rows.isEmpty || t.headers.isEmpty <;>
      simp [get_critical_items, he, h]
  · intro h1 h2 h3 rec
    have he : (t.rows.isEmpty || t.headers.isEmpty) = false := by
      simp [List.isEmpty_iff, h1, h2]
    have hnn : ¬ ("Available Stock" ∉ t.headers) := not_not_intro h3
    simp only [get_critical_items, he, Bool.false_eq_true, if_false,
      if_neg hnn, List.mem_map, List.mem_filter, decide_eq_true_eq]
    constructor
    · intro ⟨r, ⟨hr, hle⟩, heq⟩
      exact ⟨r, hr, hle, heq.symm⟩
    · intro ⟨r, hr, hle, heq⟩
      exact ⟨r, ⟨hr, hle⟩, heq.symm⟩

/-- Witness for C10 on a concrete two-row table. -/
theorem c10_witness :
    ∀ rec, rec ∈ get_critical_items
        (some ⟨["Available Stock", "B"],
          [[Cell.str "5", Cell.null], [Cell.str "50", Cell.null]]⟩) 10 ↔
      ∃ r ∈ [[Cell.str "5", Cell.null], [Cell.str "50", Cell.null]],
        (toNumericCell (cellAt r
          ((["Available Stock", "B"]).indexOf "Available Stock"))).getD 0
            ≤ ((10 : Int) : ℚ) ∧
        rec = recordOf ["Available Stock", "B"] r :=
  (c10_critical_items
    ⟨["Available Stock", "B"],
      [[Cell.str "5", Cell.null], [Cell.str "50", Cell.null]]⟩ 10).2.2.2
    (by decide) (by decide) (by decide)

/-! ### Normalizer pipeline lemmas -/

theorem afterRename_headers_length (raw : Table) :
    (afterRename raw).headers.length = raw.headers.length := by
  simp [afterRename, renameStep]

theorem afterRename_rows (raw : Table) :
    (afterRename raw).rows = rows_pruned raw := rfl

theorem afterRename_rows_length {raw : Table} {r : List Cell}
    (h : r ∈ (afterRename raw).rows) :
    r.length = (afterRename raw).headers.length := by
  rw [afterRename_headers_length]
  exact rows_pruned_length (by rwa [afterRename_rows] at h)

theorem afterDefault_rows_length {raw : Table} {r : List Cell}
    (h : r ∈ (afterDefault raw).rows) :
    r.length = (afterDefault raw).headers.length := by
  rw [afterDefault, addRestockDefault] at h ⊢
  by_cases hm : "Restock Level" ∈ (afterRename raw).headers
  · rw [if_pos hm] at h ⊢
    exact afterRename_rows_length h
  · rw [if_neg hm] at h ⊢
    simp only [addCol, List.mem_map] at h
    obtain ⟨r0, hr0, hre⟩ := h
    subst hre
    simp [addCol, afterRename_rows_length hr0]

theorem load_success {raw t : Table}
    (h : load_data_from_gsheet raw = (t, none)) :
    "Available Stock" ∈ (afterRename raw).headers ∧
    (afterDefault raw).headers.count "Available Stock" = 1 ∧
    (afterDefault raw).headers.count "Restock Level" = 1 ∧
    t = finalTable raw := by
  rw [load_data_from_gsheet] at h
  by_cases h1 : raw.headers.length < 2
  · rw [if_pos h1] at h
    exact absurd (congrArg Prod.snd h) (by simp)
  rw [if_neg h1] at h
  by_cases h2 : "Available Stock" ∉ (afterRename raw).headers
  · rw [if_pos h2] at h
    exact absurd (congrArg Prod.snd h) (by simp)
  rw [if_neg h2] at h
  push_neg at h2
  by_cases h3 : 2 ≤ (afterDefault raw).headers.count "Available Stock" ∨
      2 ≤ (afterDefault raw).headers.count "Restock Level"
  · rw [if_pos h3] at h
    exact absurd (congrArg Prod.snd h) (by simp)
  rw [if_neg h3] at h
  push_neg at h3
  obtain ⟨h3a, h3b⟩ := h3
  have hmemA : "Available Stock" ∈ (afterDefault raw).headers := by
    rw [afterDefault, addRestockDefault]
    by_cases hm : "Restock Level" ∈ (afterRename raw).headers
    · rw [if_pos hm]; exact h2
    · rw [if_neg hm]
      exact List.mem_append_left _ h2
  have hmemR : "Restock Level" ∈ (afterDefault raw).headers := by
    rw [afterDefault, addRestockDefault]
    by_cases hm : "Restock Level" ∈ (afterRename raw).headers
    · rw [if_pos hm]; exact hm
    · rw [if_neg hm]
      exact List.mem_append_right _ (List.mem_singleton_self _)
  have hcA := List.one_le_count_iff.mpr hmemA
  have hcR := List.one_le_count_iff.mpr hmemR
  exact ⟨h2, by omega, by omega, (congrArg Prod.fst h).symm⟩

theorem finalTable_eq (raw : Table) :
    finalTable raw = numStatusPipeline (afterDefault raw) := rfl

theorem getD_map_lt {α β : Type} (f : α → β) (l : List α) (i : Nat)
    (h : i < l.length) (d : β) (d' : α) :
    (l.map f).getD i d = f (l.getD i d') := by
  simp [List.getD_eq_getElem?_getD, List.getElem?_eq_getElem h]

theorem getD_mem_of_lt {α : Type} {l : List α} {i : Nat} (h : i < l.length)
    (d : α) : l.getD i d ∈ l := by
  rw [List.getD_eq_getElem?_getD, List.getElem?_eq_getElem h]
  exact List.getElem_mem h

theorem indexOf_ne_of_names {hs : List String} {a b : String}
    (ha : hs.indexOf a < hs.length) (hb : hs.indexOf b < hs.length)
    (hab : a ≠ b) : hs.indexOf a ≠ hs.indexOf b := by
  intro e
  have h1 : hs[hs.indexOf a]? = some a := by
    rw [List.getElem?_eq_getElem ha, List.getElem_indexOf ha]
  have h2 : hs[hs.indexOf b]? = some b := by
    rw [List.getElem?_eq_getElem hb, List.getElem_indexOf hb]
  rw [e, h2] at h1
  exact hab (Option.some.inj h1).symm

theorem pipeline_spec (t3 : Table)
    (hA1 : t3.headers.count "Available Stock" = 1)
    (hR1 : t3.headers.count "Restock Level" = 1)
    (hlen : ∀ r ∈ t3.rows, r.length = t3.headers.length) :
    (numStatusPipeline t3).headers.indexOf "Available Stock" =
      t3.headers.indexOf "Available Stock" ∧
    (numStatusPipeline t3).headers.indexOf "Restock Level" =
      t3.headers.indexOf "Restock Level" ∧
    "Available Stock" ∈ (numStatusPipeline t3).headers ∧
    "Restock Level" ∈ (numStatusPipeline t3).headers ∧
    "Status" ∈ (numStatusPipeline t3).headers ∧
    (numStatusPipeline t3).rows.length = t3.rows.length ∧
    (∀ i, i < t3.rows.length →
      cellAt ((numStatusPipeline t3).rows.getD i [])
          ((numStatusPipeline t3).headers.indexOf "Available Stock") =
        Cell.int (coerceInt (cellAt (t3.rows.getD i [])
          (t3.headers.indexOf "Available Stock"))) ∧
      cellAt ((numStatusPipeline t3).rows.getD i [])
          ((numStatusPipeline t3).headers.indexOf "Restock Level") =
        Cell.int (coerceInt (cellAt (t3.rows.getD i [])
          (t3.headers.indexOf "Restock Level"))) ∧
      cellAt ((numStatusPipeline t3).rows.getD i [])
          ((numStatusPipeline t3).headers.indexOf "Status") =
        Cell.str (statusOf
          (coerceInt (cellAt (t3.rows.getD i [])
            (t3.headers.indexOf "Available Stock")))
          (coerceInt (cellAt (t3.rows.getD i [])
            (t3.headers.indexOf "Restock Level"))))) := by
  have hAmem : "Available Stock" ∈ t3.headers :=
    List.one_le_count_iff.mp (by omega)
  have hRmem : "Restock Level" ∈ t3.headers :=
    List.one_le_count_iff.mp (by omega)
  have hsilt : t3.headers.indexOf "Available Stock" < t3.headers.length :=
    List.indexOf_lt_length.mpr hAmem
  have hrilt : t3.headers.indexOf "Restock Level" < t3.headers.length :=
    List.indexOf_lt_length.mpr hRmem
  have hne : t3.headers.indexOf "Available Stock" ≠
      t3.headers.indexOf "Restock Level" :=
    indexOf_ne_of_names hsilt hrilt (by decide)
  -- per-row facts after the two numeric coercions
  have hrow2 : ∀ r0, r0.length = t3.headers.length →
      ((r0.set (t3.headers.indexOf "Available Stock")
          (Cell.int (coerceInt (cellAt r0 (t3.headers.indexOf "Available Stock"))))).set
        (t3.headers.indexOf "Restock Level")
          (Cell.int (coerceInt (cellAt
            (r0.set (t3.headers.indexOf "Available Stock")
              (Cell.int (coerceInt (cellAt r0 (t3.headers.indexOf "Available Stock")))))
            (t3.headers.indexOf "Restock Level"))))).length = t3.headers.length ∧
      cellAt ((r0.set (t3.headers.indexOf "Available Stock")
          (Cell.int (coerceInt (cellAt r0 (t3.headers.indexOf "Available Stock"))))).set
        (t3.headers.indexOf "Restock Level")
          (Cell.int (coerceInt (cellAt
            (r0.set (t3.headers.indexOf "Available Stock")
              (Cell.int (coerceInt (cellAt r0 (t3.headers.indexOf "Available Stock")))))
            (t3.headers.indexOf "Restock Level")))))
        (t3.headers.indexOf "Available Stock") =
        Cell.int (coerceInt (cellAt r0 (t3.headers.indexOf "Available Stock"))) ∧
      cellAt ((r0.set (t3.headers.indexOf "Available Stock")
          (Cell.int (coerceInt (cellAt r0 (t3.headers.indexOf "Available Stock"))))).set
        (t3.headers.indexOf "Restock Level")
          (Cell.int (coerceInt (cellAt
            (r0.set (t3.headers.indexOf "Available Stock")
              (Cell.int (coerceInt (cellAt r0 (t3.headers.indexOf "Available Stock")))))
            (t3.headers.indexOf "Restock Level")))))
        (t3.headers.indexOf "Restock Level") =
        Cell.int (coerceInt (cellAt r0 (t3.headers.indexOf "Restock Level"))) := by
    intro r0 hr0
    have hcc : cellAt (r0.set (t3.headers.indexOf "Available Stock")
        (Cell.int (coerceInt (cellAt r0 (t3.headers.indexOf "Available Stock")))))
        (t3.headers.indexOf "Restock Level") =
        cellAt r0 (t3.headers.indexOf "Restock Level") :=
      cellAt_set_ne hne _
    refine ⟨by simp [hr0], ?_, ?_⟩
    · rw [cellAt_set_ne (fun e => hne e.symm), cellAt_set_self (by omega)]
    · rw [hcc, cellAt_set_self (by simpa using hrilt.trans_eq hr0.symm)]
  by_cases hst : "Status" ∈ t3.headers
  · have hstlt : t3.headers.indexOf "Status" < t3.headers.length :=
      List.indexOf_lt_length.mpr hst
    have hsne : t3.headers.indexOf "Status" ≠
        t3.headers.indexOf "Available Stock" :=
      indexOf_ne_of_names hstlt hsilt (by decide)
    have hrne : t3.headers.indexOf "Status" ≠
        t3.headers.indexOf "Restock Level" :=
      indexOf_ne_of_names hstlt hrilt (by decide)
    have hst' : "Status" ∈
        (forceNumeric (forceNumeric t3 "Available Stock")
          "Restock Level").headers := hst
    have e6 : numStatusPipeline t3 =
        ⟨t3.headers,
          ((t3.rows.map (fun r => r.set (t3.headers.indexOf "Available Stock")
              (Cell.int (coerceInt (cellAt r
                (t3.headers.indexOf "Available Stock")))))).map
            (fun r => r.set (t3.headers.indexOf "Restock Level")
              (Cell.int (coerceInt (cellAt r
                (t3.headers.indexOf "Restock Level")))))).map
            (fun r => r.set (t3.headers.indexOf "Status")
              (Cell.str (statusOf
                (getIntD (cellAt r (t3.headers.indexOf "Available Stock")))
                (getIntD (cellAt r (t3.headers.indexOf "Restock Level"))))))⟩ := by
      rw [numStatusPipeline, addStatus, setOrAddCol, if_pos hst']
      rfl
    rw [e6]
    refine ⟨rfl, rfl, hAmem, hRmem, hst, by simp, ?_⟩
    intro i hi
    dsimp only
    rw [getD_map_lt _ _ i (by simpa using hi) [] [],
      getD_map_lt _ _ i (by simpa using hi) [] [],
      getD_map_lt _ _ i hi [] []]
    have hr0len : (t3.rows.getD i []).length = t3.headers.length :=
      hlen _ (getD_mem_of_lt hi [])
    obtain ⟨hlen2, hcsi, hcri⟩ := hrow2 (t3.rows.getD i []) hr0len
    refine ⟨?_, ?_, ?_⟩
    · rw [cellAt_set_ne hsne, hcsi]
    · rw [cellAt_set_ne hrne, hcri]
    · rw [cellAt_set_self (by rw [hlen2]; exact hstlt), hcsi, hcri]
      simp [getIntD]
  · have e6 : numStatusPipeline t3 =
        ⟨t3.headers ++ ["Status"],
          (((t3.rows.map (fun r => r.set (t3.headers.indexOf "Available Stock")
              (Cell.int (coerceInt (cellAt r
                (t3.headers.indexOf "Available Stock")))))).map
            (fun r => r.set (t3.headers.indexOf "Restock Level")
              (Cell.int (coerceInt (cellAt r
                (t3.headers.indexOf "Restock Level"))))))).map
            (fun r => r ++ [Cell.str (statusOf
                (getIntD (cellAt r (t3.headers.indexOf "Available Stock")))
                (getIntD (cellAt r (t3.headers.indexOf "Restock Level"))))])⟩ := by
      have hst' : "Status" ∉
          (forceNumeric (forceNumeric t3 "Available Stock")
            "Restock Level").headers := hst
      rw [numStatusPipeline, addStatus, setOrAddCol, if_neg hst']
      rfl
    have hidxA : (t3.headers ++ ["Status"]).indexOf "Available Stock" =
        t3.headers.indexOf "Available Stock" :=
      List.indexOf_append_of_mem hAmem
    have hidxR : (t3.headers ++ ["Status"]).indexOf "Restock Level" =
        t3.headers.indexOf "Restock Level" :=
      List.indexOf_append_of_mem hRmem
    have hidxS : (t3.headers ++ ["Status"]).indexOf "Status" =
        t3.headers.length := by
      rw [List.indexOf_append_of_not_mem hst]
      simp [List.indexOf_cons_self]
    rw [e6]
    refine ⟨hidxA, hidxR, List.mem_append_left _ hAmem,
      List.mem_append_left _ hRmem,
      List.mem_append_right _ (List.mem_singleton_self _), by simp, ?_⟩
    intro i hi
    dsimp only
    rw [getD_map_lt _ _ i (by simpa using hi) [] [],
      getD_map_lt _ _ i (by simpa using hi) [] [],
      getD_map_lt _ _ i hi [] []]
    have hr0len : (t3.rows.getD i []).length = t3.headers.length :=
      hlen _ (getD_mem_of_lt hi [])
    obtain ⟨hlen2, hcsi, hcri⟩ := hrow2 (t3.rows.getD i []) hr0len
    refine ⟨?_, ?_, ?_⟩
    · rw [hidxA, cellAt_append_left (by rw [hlen2]; exact hsilt), hcsi]
    · rw [hidxR, cellAt_append_left (by rw [hlen2]; exact hrilt), hcri]
    · rw [hidxS, ← hlen2, cellAt_append_self, hcsi, hcri]
      simp [getIntD]

/-- C1: in every row of the canonical table produced by a successful
`load_data_from_gsheet`, the stored `Status` equals `statusOf` of the
stored `Available Stock` and `Restock Level` integers, where `statusOf`
is the three-way rule: `Critical` iff stock ≤ 10, else `Low Stock` iff
stock < restock level, else `In Stock`; so `Status` is a function of
those two fields only. -/
theorem c1_status_invariant (raw t : Table)
    (h : load_data_from_gsheet raw = (t, none)) :
    ∀ r ∈ t.rows, ∃ a b : Int,
      cellAt r (t.headers.indexOf "Available Stock") = Cell.int a ∧
      cellAt r (t.headers.indexOf "Restock Level") = Cell.int b ∧
      cellAt r (t.headers.indexOf "Status") = Cell.str (statusOf a b) ∧
      statusOf a b = (if a ≤ 10 then "Critical"
        else if a < b then "Low Stock" else "In Stock") := by
  obtain ⟨hA, hc1, hc2, ht⟩ := load_success h
  subst ht
  rw [finalTable_eq]
  intro r hr
  obtain ⟨hiA, hiR, _, _, _, hlenr, hrows⟩ :=
    pipeline_spec (afterDefault raw) hc1 hc2
      (fun r' hr' => afterDefault_rows_length hr')
  obtain ⟨i, hilt, hie⟩ := List.mem_iff_getElem.mp hr
  have hi' : i < (afterDefault raw).rows.length := by
    rw [← hlenr]; exact hilt
  obtain ⟨f1, f2, f3⟩ := hrows i hi'
  have hgd : (numStatusPipeline (afterDefault raw)).rows.getD i [] = r := by
    rw [List.getD_eq_getElem?_getD, List.getElem?_eq_getElem hilt, hie]
    rfl
  rw [hgd] at f1 f2 f3
  exact ⟨_, _, f1, f2, f3, rfl⟩

/-- Witness for C1 on the spec's own example row
`{"Qty": "5", "Min Stock": "10", "Name": "Widget"}`. -/
theorem c1_witness :
    ∃ a b : Int,
      cellAt ((load_data_from_gsheet ⟨["Qty", "Min Stock", "Name"],
          [[Cell.str "5", Cell.str "10", Cell.str "Widget"]]⟩).1.rows.getD 0 [])
        ((load_data_from_gsheet ⟨["Qty", "Min Stock", "Name"],
          [[Cell.str "5", Cell.str "10", Cell.str "Widget"]]⟩).1.headers.indexOf
          "Available Stock") = Cell.int a ∧
      cellAt ((load_data_from_gsheet ⟨["Qty", "Min Stock", "Name"],
          [[Cell.str "5", Cell.str "10", Cell.str "Widget"]]⟩).1.rows.getD 0 [])
        ((load_data_from_gsheet ⟨["Qty", "Min Stock", "Name"],
          [[Cell.str "5", Cell.str "10", Cell.str "Widget"]]⟩).1.headers.indexOf
          "Restock Level") = Cell.int b ∧
      cellAt ((load_data_from_gsheet ⟨["Qty", "Min Stock", "Name"],
          [[Cell.str "5", Cell.str "10", Cell.str "Widget"]]⟩).1.rows.getD 0 [])
        ((load_data_from_gsheet ⟨["Qty", "Min Stock", "Name"],
          [[Cell.str "5", Cell.str "10", Cell.str "Widget"]]⟩).1.headers.indexOf
          "Status") = Cell.str (statusOf a b) ∧
      statusOf a b = (if a ≤ 10 then "Critical"
        else if a < b then "Low Stock" else "In Stock") :=
  c1_status_invariant ⟨["Qty", "Min Stock", "Name"],
      [[Cell.str "5", Cell.str "10", Cell.str "Widget"]]⟩
    (load_data_from_gsheet ⟨["Qty", "Min Stock", "Name"],
      [[Cell.str "5", Cell.str "10", Cell.str "Widget"]]⟩).1
    (by decide) _ (by decide)

/-- C2 counterexample: the source value `"-5"` parses numerically, so it
is NOT coerced to 0, and the normalized `Available Stock` holds the
negative integer `-5`: values below 0 do appear. -/
theorem c2_counterexample :
    (load_data_from_gsheet ⟨["qty", "restock level"],
      [[Cell.str "-5", Cell.str "3"]]⟩).2 = none ∧
    cellAt ((load_data_from_gsheet ⟨["qty", "restock level"],
        [[Cell.str "-5", Cell.str "3"]]⟩).1.rows.getD 0 [])
      ((load_data_from_gsheet ⟨["qty", "restock level"],
        [[Cell.str "-5", Cell.str "3"]]⟩).1.headers.indexOf
        "Available Stock") = Cell.int (-5) ∧
    (-5 : Int) < 0 := by
  refine ⟨by decide, by decide, by decide⟩

/-- C2 (amended): after normalization both `Available Stock` and
`Restock Level` hold integers, each obtained by numeric coercion of the
corresponding pre-coercion cell, and any cell that fails numeric parsing
(non-numeric text, null) coerces to 0; negative numeric source values
are preserved, not clamped. -/
theorem c2_integer_coercion (raw t : Table)
    (h : load_data_from_gsheet raw = (t, none)) :
    (∀ i, i < (afterDefault raw).rows.length →
      cellAt (t.rows.getD i []) (t.headers.indexOf "Available Stock") =
        Cell.int (coerceInt (cellAt ((afterDefault raw).rows.getD i [])
          ((afterDefault raw).headers.indexOf "Available Stock"))) ∧
      cellAt (t.rows.getD i []) (t.headers.indexOf "Restock Level") =
        Cell.int (coerceInt (cellAt ((afterDefault raw).rows.getD i [])
          ((afterDefault raw).headers.indexOf "Restock Level")))) ∧
    (∀ c : Cell, toNumericCell c = none → coerceInt c = 0) ∧
    t.rows.length = (afterDefault raw).rows.length := by
  obtain ⟨hA, hc1, hc2, ht⟩ := load_success h
  subst ht
  rw [finalTable_eq]
  obtain ⟨hiA, hiR, _, _, _, hlenr, hrows⟩ :=
    pipeline_spec (afterDefault raw) hc1 hc2
      (fun r' hr' => afterDefault_rows_length hr')
  refine ⟨fun i hi => ⟨(hrows i hi).1, (hrows i hi).2.1⟩, fun c hc => ?_, hlenr⟩
  simp [coerceInt, hc]

/-- Witness for C2 (amended) on a concrete table: `"abc"` fails parsing
and coerces to 0. -/
theorem c2_witness :
    cellAt ((load_data_from_gsheet ⟨["qty", "B"],
        [[Cell.str "abc", Cell.str "x"]]⟩).1.rows.getD 0 [])
      ((load_data_from_gsheet ⟨["qty", "B"],
        [[Cell.str "abc", Cell.str "x"]]⟩).1.headers.indexOf
        "Available Stock") =
      Cell.int (coerceInt (cellAt
        ((afterDefault ⟨["qty", "B"],
          [[Cell.str "abc", Cell.str "x"]]⟩).rows.getD 0 [])
        ((afterDefault ⟨["qty", "B"],
          [[Cell.str "abc", Cell.str "x"]]⟩).headers.indexOf
          "Available Stock"))) ∧
    coerceInt (Cell.str "abc") = 0 :=
  ⟨((c2_integer_coercion ⟨["qty", "B"], [[Cell.str "abc", Cell.str "x"]]⟩
      (load_data_from_gsheet
        ⟨["qty", "B"], [[Cell.str "abc", Cell.str "x"]]⟩).1
      (by decide)).1 0 (by decide)).1,
    (c2_integer_coercion ⟨["qty", "B"], [[Cell.str "abc", Cell.str "x"]]⟩
      (load_data_from_gsheet
        ⟨["qty", "B"], [[Cell.str "abc", Cell.str "x"]]⟩).1
      (by decide)).2.1 (Cell.str "abc") (by decide)⟩

theorem column_map_restock_aliases {al : List String}
    (h : ("Restock Level", al) ∈ column_map) :
    al = ["restock level", "threshold", "min stock", "reorder point",
      "minimum"] := by
  simp only [column_map, List.mem_cons, List.not_mem_nil, or_false,
    Prod.mk.injEq] at h
  rcases h with ⟨h1, h2⟩ | ⟨h1, h2⟩ | ⟨h1, h2⟩ | ⟨h1, h2⟩
  · exact absurd h1 (by decide)
  · exact h2
  · exact absurd h1 (by decide)
  · exact absurd h1 (by decide)

theorem column_map_stock_aliases {al : List String}
    (h : ("Available Stock", al) ∈ column_map) :
    al = ["stock", "qty", "quantity", "inventory", "available", "on hand",
      "available stock(sync with shopify)"] := by
  simp only [column_map, List.mem_cons, List.not_mem_nil, or_false,
    Prod.mk.injEq] at h
  rcases h with ⟨h1, h2⟩ | ⟨h1, h2⟩ | ⟨h1, h2⟩ | ⟨h1, h2⟩
  · exact h2
  · exact absurd h1 (by decide)
  · exact absurd h1 (by decide)
  · exact absurd h1 (by decide)

/-- If a canonical name appears among the renamed headers, either a source
header already bore that name untouched, or some alias of a `column_map`
entry with that value matched. -/
theorem mem_afterRename_headers {raw : Table} {name : String}
    (h : name ∈ (afterRename raw).headers) :
    (name ∈ raw.headers ∧
        (rename_dict raw.headers).lookup name = none) ∨
      ∃ c al, (name, al) ∈ column_map ∧ (∃ a ∈ al, current_cols raw.headers a = some c) ∧
        c ∈ raw.headers := by
  simp only [afterRename, renameStep, List.mem_map] at h
  obtain ⟨c, hc, he⟩ := h
  rw [applyRename] at he
  cases hl : (rename_dict raw.headers).lookup c with
  | none =>
    rw [hl] at he
    simp at he
    subst he
    exact Or.inl ⟨hc, hl⟩
  | some v =>
    rw [hl] at he
    simp at he
    subst he
    have hmem := lookup_mem hl
    obtain ⟨al, hal, hfas⟩ := rename_dict_mem.mp hmem
    obtain ⟨a, ha, hcc⟩ := firstAliasSource_exists hfas
    exact Or.inr ⟨c, al, hal, ⟨a, ha, hcc⟩, (current_cols_eq_some hcc).1⟩

/-- C6: when no source header matches any `Restock Level` alias (and the
load succeeds, so a stock column was present), the canonical table
contains a `Restock Level` column holding 10 in every row. -/
theorem c6_restock_default (raw t : Table)
    (h : load_data_from_gsheet raw = (t, none))
    (hnone : ∀ a ∈ ["restock level", "threshold", "min stock",
      "reorder point", "minimum"], ¬ aliasPresent raw.headers a) :
    "Restock Level" ∈ t.headers ∧
    ∀ r ∈ t.rows,
      cellAt r (t.headers.indexOf "Restock Level") = Cell.int 10 := by
  obtain ⟨hA, hc1, hc2, ht⟩ := load_success h
  subst ht
  rw [finalTable_eq]
  have hnotin : "Restock Level" ∉ (afterRename raw).headers := by
    intro hmem
    rcases mem_afterRename_headers hmem with ⟨hraw, -⟩ |
      ⟨c, al, hal, ⟨a, ha, hcc⟩, -⟩
    · exact hnone "restock level" (by decide)
        ⟨"Restock Level", hraw, by decide⟩
    · have hale := column_map_restock_aliases hal
      subst hale
      obtain ⟨hcmem, hcnorm⟩ := current_cols_eq_some hcc
      exact hnone a ha ⟨c, hcmem, hcnorm⟩
  have hAD : afterDefault raw =
      addCol (afterRename raw) "Restock Level" (fun _ => Cell.int 10) := by
    rw [afterDefault, addRestockDefault, if_neg hnotin]
  have hidx : (afterDefault raw).headers.indexOf "Restock Level" =
      (afterRename raw).headers.length := by
    rw [hAD, addCol]
    dsimp only
    rw [List.indexOf_append_of_not_mem hnotin]
    simp [List.indexOf_cons_self]
  have hcell : ∀ i, i < (afterDefault raw).rows.length →
      cellAt ((afterDefault raw).rows.getD i [])
        ((afterDefault raw).headers.indexOf "Restock Level") =
        Cell.int 10 := by
    intro i hi
    rw [hidx]
    rw [hAD] at hi ⊢
    dsimp only [addCol] at hi ⊢
    rw [getD_map_lt _ _ i (by simpa using hi) [] []]
    have hlen' : ((afterRename raw).rows.getD i []).length =
        (afterRename raw).headers.length :=
      afterRename_rows_length (getD_mem_of_lt (by simpa using hi) [])
    rw [← hlen']
    exact cellAt_append_self _
  obtain ⟨hiA, hiR, _, hRmem, _, hlenr, hrows⟩ :=
    pipeline_spec (afterDefault raw) hc1 hc2
      (fun r' hr' => afterDefault_rows_length hr')
  refine ⟨hRmem, ?_⟩
  intro r hr
  obtain ⟨i, hilt, hie⟩ := List.mem_iff_getElem.mp hr
  have hi' : i < (afterDefault raw).rows.length := by
    rw [← hlenr]; exact hilt
  have hgd : (numStatusPipeline (afterDefault raw)).rows.getD i [] = r := by
    rw [List.getD_eq_getElem?_getD, List.getElem?_eq_getElem hilt, hie]
    rfl
  have f2 := (hrows i hi').2.1
  rw [hgd, hcell i hi'] at f2
  rw [f2]
  decide

/-- Witness for C6: a table with a stock alias and no restock alias. -/
theorem c6_witness :
    "Restock Level" ∈ (load_data_from_gsheet
      ⟨["qty", "B"], [[Cell.str "5", Cell.str "x"]]⟩).1.headers ∧
    cellAt ((load_data_from_gsheet
        ⟨["qty", "B"], [[Cell.str "5", Cell.str "x"]]⟩).1.rows.getD 0 [])
      ((load_data_from_gsheet
        ⟨["qty", "B"], [[Cell.str "5", Cell.str "x"]]⟩).1.headers.indexOf
        "Restock Level") = Cell.int 10 :=
  ⟨(c6_restock_default ⟨["qty", "B"], [[Cell.str "5", Cell.str "x"]]⟩
      (load_data_from_gsheet
        ⟨["qty", "B"], [[Cell.str "5", Cell.str "x"]]⟩).1
      (by decide) (by decide)).1,
    (c6_restock_default ⟨["qty", "B"], [[Cell.str "5", Cell.str "x"]]⟩
      (load_data_from_gsheet
        ⟨["qty", "B"], [[Cell.str "5", Cell.str "x"]]⟩).1
      (by decide) (by decide)).2 _ (by decide)⟩

/-- C5 counterexample: a table whose header is literally
`"Available Stock"` matches NO stock alias, yet the load succeeds with a
non-empty table and no error, because the code checks for the canonical
column name after renaming rather than for an alias match. -/
theorem c5_counterexample :
    (∀ a ∈ ["stock", "qty", "quantity", "inventory", "available",
      "on hand", "available stock(sync with shopify)"],
      ¬ aliasPresent ["Available Stock", "B"] a) ∧
    (load_data_from_gsheet ⟨["Available Stock", "B"],
      [[Cell.str "5", Cell.str "x"]]⟩).2 = none ∧
    (load_data_from_gsheet ⟨["Available Stock", "B"],
      [[Cell.str "5", Cell.str "x"]]⟩).1 ≠ emptyTable := by
  refine ⟨by decide, by decide, by decide⟩

/-- C5 (amended): when no source header matches any `Available Stock`
alias AND no source header is literally the canonical name
`"Available Stock"`, the load returns the empty table together with an
error message; being a total function, it raises nothing. -/
theorem c5_missing_stock (raw : Table)
    (hno : ∀ a ∈ ["stock", "qty", "quantity", "inventory", "available",
      "on hand", "available stock(sync with shopify)"],
      ¬ aliasPresent raw.headers a)
    (hlit : "Available Stock" ∉ raw.headers) :
    ∃ m, load_data_from_gsheet raw = (emptyTable, some m) := by
  rw [load_data_from_gsheet]
  by_cases h1 : raw.headers.length < 2
  · rw [if_pos h1]
    exact ⟨_, rfl⟩
  rw [if_neg h1]
  have hnotin : "Available Stock" ∉ (afterRename raw).headers := by
    intro hmem
    rcases mem_afterRename_headers hmem with ⟨hraw, -⟩ |
      ⟨c, al, hal, ⟨a, ha, hcc⟩, -⟩
    · exact hlit hraw
    · have hale := column_map_stock_aliases hal
      subst hale
      obtain ⟨hcmem, hcnorm⟩ := current_cols_eq_some hcc
      exact hno a ha ⟨c, hcmem, hcnorm⟩
  rw [if_pos hnotin]
  exact ⟨_, rfl⟩

/-- Witness for C5 (amended) on a table with no stock-like header. -/
theorem c5_witness :
    ∃ m, load_data_from_gsheet
      ⟨["Foo", "Bar"], [[Cell.str "5", Cell.str "x"]]⟩ =
      (emptyTable, some m) :=
  c5_missing_stock ⟨["Foo", "Bar"], [[Cell.str "5", Cell.str "x"]]⟩
    (by decide) (by decide)

/-- C4: the renaming step preserves row data verbatim and every column:
no column is dropped (header count is preserved), a source column whose
normalized name matches no alias of any canonical field keeps its name
unchanged, and a matched source column is renamed (once) to the canonical
name of the `rename_dict` entry carrying it. -/
theorem c4_rename_frame (raw : Table) :
    (renameStep ⟨raw.headers, rows_pruned raw⟩).rows = rows_pruned raw ∧
    (afterRename raw).headers.length = raw.headers.length ∧
    (∀ i, i < raw.headers.length →
      (∀ p ∈ column_map, ∀ a ∈ p.2,
        current_cols raw.headers a ≠ some (raw.headers.getD i "")) →
      (afterRename raw).headers.getD i "" = raw.headers.getD i "") ∧
    (∀ i canon, i < raw.headers.length →
      (raw.headers.getD i "", canon) ∈ rename_dict raw.headers →
      (afterRename raw).headers.getD i "" = canon) := by
  have hmap : ∀ i, i < raw.headers.length →
      (afterRename raw).headers.getD i "" =
        applyRename (rename_dict raw.headers) (raw.headers.getD i "") := by
    intro i hi
    dsimp only [afterRename, renameStep]
    exact getD_map_lt _ raw.headers i hi "" ""
  refine ⟨rfl, afterRename_headers_length raw, ?_, ?_⟩
  · intro i hi hnm
    rw [hmap i hi, applyRename]
    cases hl : (rename_dict raw.headers).lookup (raw.headers.getD i "") with
    | none => rfl
    | some v =>
      exfalso
      have hmem := lookup_mem hl
      obtain ⟨al, hal, hfas⟩ := rename_dict_mem.mp hmem
      obtain ⟨a, ha, hcc⟩ := firstAliasSource_exists hfas
      exact hnm (v, al) hal a ha hcc
  · intro i canon hi hmem
    rw [hmap i hi, applyRename, rename_dict_lookup_of_mem hmem]
    rfl

/-- Witness for C4: `"Supplier"` is untouched while `"qty"` is renamed. -/
theorem c4_witness :
    (afterRename ⟨["Supplier", "qty"], []⟩).headers.getD 0 "" =
      (["Supplier", "qty"]).getD 0 "" ∧
    (afterRename ⟨["Supplier", "qty"], []⟩).headers.getD 1 "" =
      "Available Stock" :=
  ⟨(c4_rename_frame ⟨["Supplier", "qty"], []⟩).2.2.1 0 (by decide)
      (by decide),
    (c4_rename_frame ⟨["Supplier", "qty"], []⟩).2.2.2 1 "Available Stock"
      (by decide) (by decide)⟩
